import Mathlib

/-!
Verification development for the loan-application REST service in
`src/main.py`.  The service keeps customers, employment records and loan
records in a relational store; the interesting logic is the customer-id
allocator in `create_personal_details`, the summary aggregation in
`get_customer_summary`, and the two record-creation endpoints
`add_employment_details` and `add_loan_info`.

Modelling conventions:
* the record store (SQLAlchemy session) is a `Store` value holding the three
  tables as lists; `filter_by(...).first()` is `List.find?`, a filtered
  `.all()` is `List.filter`, and `order_by(col.desc()).first()` is a fold
  that keeps the greatest element under the column's order;
* `ORDER BY Customer_ID DESC` compares the identifier column as a string,
  which for ASCII identifiers is lexicographic comparison by character code
  (`strLt` below);
* Python `f"CUST{n:04d}"` is `formatCustomerId`, and `int(cid[4:])` on a
  digit string is `idSuffix`;
* monetary request values arrive as Python floats; they are modelled as
  exact rationals (every concrete value appearing in the claims is exactly
  representable), and Python `int(x)` (truncation toward zero) is `pyInt`;
* dates are modelled as integers (day ordinals), which is all the code needs
  because it only compares dates and defaults them;
* a commit that may fail is modelled by an explicit `commitOk : Bool`
  parameter: the operations return the response together with the store
  after the transaction, and a failed commit rolls back to the input store.
-/

namespace LoanApp

/-- One decimal digit as a character, `'0'`-`'9'`.  (Argument is taken mod
the match: any input `≥ 9` maps to `'9'`; it is only used with `d < 10`.) -/
def digitChar (d : Nat) : Char :=
  match d with
  | 0 => '0' | 1 => '1' | 2 => '2' | 3 => '3' | 4 => '4'
  | 5 => '5' | 6 => '6' | 7 => '7' | 8 => '8' | _ => '9'

/-- Fuelled decimal digit expansion (most significant digit first).
`natDigitsAux fuel n` is the digit string of `n` provided `n ≤ fuel`. -/
def natDigitsAux (fuel : Nat) (n : Nat) : List Char :=
  match fuel with
  | 0 => []
  | fuel + 1 => if n = 0 then [] else natDigitsAux fuel (n / 10) ++ [digitChar (n % 10)]

/-- Decimal digit string of a natural number, as produced by Python `str`. -/
def natDigits (n : Nat) : List Char :=
  if n = 0 then ['0'] else natDigitsAux n n

/-- Zero-pad a digit string on the left to width (at least) 4, as Python
`f"{n:04d}"` does. -/
def pad4 (ds : List Char) : List Char :=
  List.replicate (4 - ds.length) '0' ++ ds

/-- The identifier string `f"CUST{n:04d}"` of `src/main.py` line 279. -/
def formatCustomerId (n : Nat) : String :=
  ⟨'C' :: 'U' :: 'S' :: 'T' :: pad4 (natDigits n)⟩

/-- Numeric value of a digit character. -/
def digitVal (c : Char) : Nat := c.toNat - 48

/-- Value of a decimal digit string, as Python `int` computes it on a string
of digits. -/
def parseDigits (cs : List Char) : Nat :=
  cs.foldl (fun a c => a * 10 + digitVal c) 0

/-- `int(cid[4:])` of `src/main.py` line 274: numeric suffix of a customer
identifier.  (On a non-digit suffix Python would raise; the model is total
but is only ever applied to digit suffixes.) -/
def idSuffix (cid : String) : Nat := parseDigits (cid.data.drop 4)

/-- A character is a decimal digit. -/
def isDigitChar (c : Char) : Prop := 48 ≤ c.toNat ∧ c.toNat ≤ 57

/-- Lexicographic comparison of character lists by character code. -/
def charListLt (a : List Char) (b : List Char) : Bool :=
  match a, b with
  | [], [] => false
  | [], _ :: _ => true
  | _ :: _, [] => false
  | x :: xs, y :: ys =>
    if x.toNat < y.toNat then true
    else if y.toNat < x.toNat then false
    else charListLt xs ys

/-- String comparison used by the store's `ORDER BY Customer_ID DESC`:
lexicographic by character code. -/
def strLt (a : String) (b : String) : Bool := charListLt a.data b.data

/- ### Lemmas about digits, parsing and formatting -/

theorem digitChar_toNat (d : Nat) (h : d < 10) : (digitChar d).toNat = 48 + d := by
  interval_cases d <;> rfl

theorem digitChar_isDigit (d : Nat) (h : d < 10) : isDigitChar (digitChar d) := by
  constructor <;> rw [digitChar_toNat d h] <;> omega

theorem digitVal_digitChar (d : Nat) (h : d < 10) : digitVal (digitChar d) = d := by
  unfold digitVal
  rw [digitChar_toNat d h]
  omega

theorem isDigitChar_zero : isDigitChar '0' := by
  constructor <;> decide

theorem digitVal_le_of_isDigit (c : Char) (h : isDigitChar c) : digitVal c ≤ 9 := by
  obtain ⟨h1, h2⟩ := h
  unfold digitVal
  omega

theorem parseDigits_nil : parseDigits [] = 0 := rfl

theorem parseDigits_append_singleton (xs : List Char) (c : Char) :
    parseDigits (xs ++ [c]) = parseDigits xs * 10 + digitVal c := by
  unfold parseDigits
  rw [List.foldl_append]
  rfl

theorem parseDigits_shift (cs : List Char) :
    ∀ a : Nat, cs.foldl (fun a c => a * 10 + digitVal c) a
      = a * 10 ^ cs.length + parseDigits cs := by
  induction cs with
  | nil => intro a; simp [parseDigits]
  | cons c cs ih =>
    intro a
    have h1 : (c :: cs).foldl (fun a c => a * 10 + digitVal c) a
        = cs.foldl (fun a c => a * 10 + digitVal c) (a * 10 + digitVal c) := rfl
    have h2 : parseDigits (c :: cs)
        = cs.foldl (fun a c => a * 10 + digitVal c) (0 * 10 + digitVal c) := rfl
    rw [h1, ih (a * 10 + digitVal c), h2, ih (0 * 10 + digitVal c)]
    simp [List.length_cons]
    ring

theorem parseDigits_cons (c : Char) (cs : List Char) :
    parseDigits (c :: cs) = digitVal c * 10 ^ cs.length + parseDigits cs := by
  have h : parseDigits (c :: cs)
      = cs.foldl (fun a c => a * 10 + digitVal c) (0 * 10 + digitVal c) := rfl
  rw [h, parseDigits_shift]
  ring_nf

theorem parseDigits_lt (cs : List Char) (h : ∀ c ∈ cs, isDigitChar c) :
    parseDigits cs < 10 ^ cs.length := by
  induction cs with
  | nil => simp [parseDigits]
  | cons c cs ih =>
    have hc : digitVal c ≤ 9 := digitVal_le_of_isDigit c (h c (by simp))
    have hcs : parseDigits cs < 10 ^ cs.length := ih (fun x hx => h x (by simp [hx]))
    rw [parseDigits_cons]
    calc digitVal c * 10 ^ cs.length + parseDigits cs
        < digitVal c * 10 ^ cs.length + 10 ^ cs.length := by omega
      _ = (digitVal c + 1) * 10 ^ cs.length := by ring
      _ ≤ 10 * 10 ^ cs.length := by
          exact Nat.mul_le_mul_right _ (by omega)
      _ = 10 ^ (cs.length + 1) := by ring
      _ = 10 ^ (c :: cs).length := by simp

theorem natDigitsAux_digits (fuel : Nat) :
    ∀ n, ∀ c ∈ natDigitsAux fuel n, isDigitChar c := by
  induction fuel with
  | zero => intro n c hc; simp [natDigitsAux] at hc
  | succ fuel ih =>
    intro n c hc
    unfold natDigitsAux at hc
    by_cases hn : n = 0
    · simp [hn] at hc
    · simp [hn, List.mem_append] at hc
      rcases hc with hc | hc
      · exact ih (n / 10) c hc
      · rw [hc]
        exact digitChar_isDigit _ (Nat.mod_lt _ (by omega))

theorem natDigitsAux_parse (fuel : Nat) :
    ∀ n, n ≤ fuel → parseDigits (natDigitsAux fuel n) = n := by
  induction fuel with
  | zero =>
    intro n hn
    have : n = 0 := by omega
    simp [this, natDigitsAux, parseDigits]
  | succ fuel ih =>
    intro n hn
    unfold natDigitsAux
    by_cases hn0 : n = 0
    · simp [hn0, parseDigits]
    · have hdiv : n / 10 < n := Nat.div_lt_self (by omega) (by omega)
      simp only [hn0, if_false]
      rw [parseDigits_append_singleton, ih (n / 10) (by omega),
        digitVal_digitChar _ (Nat.mod_lt _ (by omega))]
      omega

theorem natDigitsAux_length (fuel : Nat) :
    ∀ n k, n ≤ fuel → n < 10 ^ k → (natDigitsAux fuel n).length ≤ k := by
  induction fuel with
  | zero => intro n k h1 h2; simp [natDigitsAux]
  | succ fuel ih =>
    intro n k h1 h2
    unfold natDigitsAux
    by_cases hn0 : n = 0
    · simp [hn0]
    · simp only [hn0, if_false, List.length_append, List.length_singleton]
      have hdiv : n / 10 < n := Nat.div_lt_self (by omega) (by omega)
      cases k with
      | zero => simp at h2; omega
      | succ k =>
        have hk : n / 10 < 10 ^ k := by
          rw [Nat.div_lt_iff_lt_mul (by omega)]
          calc n < 10 ^ (k + 1) := h2
            _ = 10 ^ k * 10 := by ring
        have := ih (n / 10) k (by omega) hk
        omega

theorem natDigitsAux_ne_nil (fuel : Nat) :
    ∀ n, n ≠ 0 → n ≤ fuel → natDigitsAux fuel n ≠ [] := by
  intro n hn0 hle
  cases fuel with
  | zero => omega
  | succ fuel => simp [natDigitsAux, hn0]

theorem natDigits_parse (n : Nat) : parseDigits (natDigits n) = n := by
  unfold natDigits
  by_cases hn : n = 0
  · simp [hn]
    rfl
  · simp [hn]
    exact natDigitsAux_parse n n le_rfl

theorem natDigits_digits (n : Nat) : ∀ c ∈ natDigits n, isDigitChar c := by
  unfold natDigits
  by_cases hn : n = 0
  · simp [hn]
    exact isDigitChar_zero
  · simp [hn]
    exact natDigitsAux_digits n n

theorem natDigits_length_le (n : Nat) (h : n ≤ 9999) : (natDigits n).length ≤ 4 := by
  unfold natDigits
  by_cases hn : n = 0
  · simp [hn]
  · simp [hn]
    exact natDigitsAux_length n n 4 le_rfl (by omega)

theorem natDigits_ne_nil (n : Nat) : natDigits n ≠ [] := by
  unfold natDigits
  by_cases hn : n = 0
  · simp [hn]
  · simp [hn]
    exact natDigitsAux_ne_nil n n hn le_rfl

theorem foldl_replicate_zero (k : Nat) :
    (List.replicate k '0').foldl (fun a c => a * 10 + digitVal c) 0 = 0 := by
  induction k with
  | zero => rfl
  | succ k ih =>
    rw [List.replicate_succ]
    have h : ('0' :: List.replicate k '0').foldl (fun a c => a * 10 + digitVal c) 0
        = (List.replicate k '0').foldl (fun a c => a * 10 + digitVal c) (0 * 10 + digitVal '0') := rfl
    rw [h]
    have hv : (0 * 10 + digitVal '0') = 0 := by rfl
    rw [hv, ih]

theorem parseDigits_pad4 (ds : List Char) : parseDigits (pad4 ds) = parseDigits ds := by
  unfold pad4 parseDigits
  rw [List.foldl_append, foldl_replicate_zero]

theorem pad4_digits (ds : List Char) (h : ∀ c ∈ ds, isDigitChar c) :
    ∀ c ∈ pad4 ds, isDigitChar c := by
  intro c hc
  unfold pad4 at hc
  rw [List.mem_append] at hc
  rcases hc with hc | hc
  · have := List.eq_of_mem_replicate hc
    rw [this]
    exact isDigitChar_zero
  · exact h c hc

theorem pad4_length (ds : List Char) (h : ds.length ≤ 4) : (pad4 ds).length = 4 := by
  unfold pad4
  rw [List.length_append, List.length_replicate]
  omega

theorem pad4_length_ge (ds : List Char) : 4 ≤ (pad4 ds).length := by
  unfold pad4
  rw [List.length_append, List.length_replicate]
  omega

theorem formatCustomerId_data (n : Nat) :
    (formatCustomerId n).data = 'C' :: 'U' :: 'S' :: 'T' :: pad4 (natDigits n) := rfl

theorem idSuffix_formatCustomerId (n : Nat) : idSuffix (formatCustomerId n) = n := by
  unfold idSuffix
  rw [formatCustomerId_data]
  have h : ('C' :: 'U' :: 'S' :: 'T' :: pad4 (natDigits n)).drop 4 = pad4 (natDigits n) := rfl
  rw [h, parseDigits_pad4, natDigits_parse]

/- ### Lexicographic order versus numeric order on digit strings -/

theorem charListLt_cons (x y : Char) (xs ys : List Char) :
    charListLt (x :: xs) (y :: ys)
      = if x.toNat < y.toNat then true
        else if y.toNat < x.toNat then false
        else charListLt xs ys := rfl

theorem charListLt_cons_same (c : Char) (xs ys : List Char) :
    charListLt (c :: xs) (c :: ys) = charListLt xs ys := by
  rw [charListLt_cons]
  simp

theorem charListLt_digit_iff :
    ∀ xs ys : List Char, xs.length = ys.length →
      (∀ c ∈ xs, isDigitChar c) → (∀ c ∈ ys, isDigitChar c) →
      (charListLt xs ys = true ↔ parseDigits xs < parseDigits ys) := by
  intro xs
  induction xs with
  | nil =>
    intro ys hlen h1 h2
    cases ys with
    | nil => simp [charListLt, parseDigits]
    | cons y ys => simp at hlen
  | cons x xs ih =>
    intro ys hlen h1 h2
    cases ys with
    | nil => simp at hlen
    | cons y ys =>
      have hlen2 : xs.length = ys.length := by simpa using hlen
      have hx : isDigitChar x := h1 x (by simp)
      have hy : isDigitChar y := h2 y (by simp)
      have hxs : ∀ c ∈ xs, isDigitChar c := fun c hc => h1 c (by simp [hc])
      have hys : ∀ c ∈ ys, isDigitChar c := fun c hc => h2 c (by simp [hc])
      have hxb : parseDigits xs < 10 ^ xs.length := parseDigits_lt xs hxs
      have hyb : parseDigits ys < 10 ^ ys.length := parseDigits_lt ys hys
      rw [parseDigits_cons, parseDigits_cons, hlen2]
      by_cases hlt : x.toNat < y.toNat
      · have hvlt : digitVal x < digitVal y := by
          obtain ⟨ha, _⟩ := hx
          obtain ⟨hb, _⟩ := hy
          unfold digitVal
          omega
        have hgoal : digitVal x * 10 ^ ys.length + parseDigits xs
            < digitVal y * 10 ^ ys.length + parseDigits ys := by
          calc digitVal x * 10 ^ ys.length + parseDigits xs
              < digitVal x * 10 ^ ys.length + 10 ^ ys.length := by
                rw [hlen2] at hxb
                omega
            _ = (digitVal x + 1) * 10 ^ ys.length := by ring
            _ ≤ digitVal y * 10 ^ ys.length := Nat.mul_le_mul_right _ (by omega)
            _ ≤ digitVal y * 10 ^ ys.length + parseDigits ys := by omega
        rw [charListLt_cons]
        simp [hlt, hgoal]
      · by_cases hgt : y.toNat < x.toNat
        · have hvlt : digitVal y < digitVal x := by
            obtain ⟨ha, _⟩ := hx
            obtain ⟨hb, _⟩ := hy
            unfold digitVal
            omega
          have hgoal : digitVal y * 10 ^ ys.length + parseDigits ys
              < digitVal x * 10 ^ ys.length + parseDigits xs := by
            calc digitVal y * 10 ^ ys.length + parseDigits ys
                < digitVal y * 10 ^ ys.length + 10 ^ ys.length := by omega
              _ = (digitVal y + 1) * 10 ^ ys.length := by ring
              _ ≤ digitVal x * 10 ^ ys.length := Nat.mul_le_mul_right _ (by omega)
              _ ≤ digitVal x * 10 ^ ys.length + parseDigits xs := by omega
          rw [charListLt_cons]
          simp [hlt, hgt]
          omega
        · have hveq : digitVal x = digitVal y := by
            unfold digitVal
            omega
          rw [charListLt_cons]
          simp [hlt, hgt, hveq]
          rw [ih ys hlen2 hxs hys]

theorem formatCustomerId_lt_iff (m n : Nat) (hm : m ≤ 9999) (hn : n ≤ 9999) :
    (strLt (formatCustomerId m) (formatCustomerId n) = true) ↔ m < n := by
  unfold strLt
  rw [formatCustomerId_data, formatCustomerId_data]
  rw [charListLt_cons_same, charListLt_cons_same, charListLt_cons_same, charListLt_cons_same]
  have hlm : (pad4 (natDigits m)).length = 4 := pad4_length _ (natDigits_length_le m hm)
  have hln : (pad4 (natDigits n)).length = 4 := pad4_length _ (natDigits_length_le n hn)
  rw [charListLt_digit_iff (pad4 (natDigits m)) (pad4 (natDigits n)) (by omega)
    (pad4_digits _ (natDigits_digits m)) (pad4_digits _ (natDigits_digits n))]
  rw [parseDigits_pad4, parseDigits_pad4, natDigits_parse, natDigits_parse]

/- ### Data model (the ORM tables used by the endpoints) -/

/-- Row of the `MasterCustomerData` table, with the columns written by
`create_personal_details` and read by the other endpoints. -/
structure MasterCustomerData where
  Customer_ID : String
  Name : String
  Fathers_Name : String
  DOB : Int
  Age : Int
  Gender : String
  Marital_Status : String
  Address : String
  City : String
  State : String
  Pincode : Int
  Mobile : Int
  Alternate_Mobile : Option Int
  Email : String
  Nationality : String
  Customer_Since : Option Int
deriving DecidableEq

/-- Row of the `EmploymentInfo` table. -/
structure EmploymentInfo where
  Customer_ID : String
  Designation : String
  Monthly_Income : Int
  Employment_Status : String
  Income_Verification : String
deriving DecidableEq

/-- Row of the `LoanInfo` table. -/
structure LoanInfo where
  Customer_ID : String
  Loan_Required : String
  Loan_Amount : Int
  Loan_Purpose : String
  Application_Date : Int
  Loan_Status : String
  Collateral_Required : String
  EMI : Option Int
  Tenure_Months : Option Int
  Credit_Score : Option Int
deriving DecidableEq

/-- The record store: the three tables the endpoints touch. -/
structure Store where
  customers : List MasterCustomerData
  employments : List EmploymentInfo
  loans : List LoanInfo
deriving DecidableEq

/- ### Request bodies (the pydantic models) -/

/-- `PersonalDetailsRequest` of `src/main.py`. -/
structure PersonalDetailsRequest where
  name : String
  fathers_name : String
  dob : Int
  age : Int
  gender : String
  marital_status : String
  address : String
  city : String
  state : String
  pincode : Int
  mobile : Int
  alternate_mobile : Option Int
  email : String
  nationality : String

/-- `EmploymentDetailsRequest` of `src/main.py`: `monthly_income` is a float,
modelled as an exact rational. -/
structure EmploymentDetailsRequest where
  designation : String
  monthly_income : ℚ

/-- `LoanApplicationRequest` of `src/main.py`: `loan_amount` is a float,
modelled as an exact rational; `loan_required` defaults to `"Yes"` and
`loan_status` to `"PENDING"` at the schema layer. -/
structure LoanApplicationRequest where
  loan_amount : ℚ
  loan_required : String := "Yes"
  application_date : Option Int := none
  loan_status : String := "PENDING"

/- ### Python helpers -/

/-- Python `int(x)` on a numeric value: truncation toward zero. -/
def pyInt (q : ℚ) : Int := if 0 ≤ q then ⌊q⌋ else ⌈q⌉

/-- Python truthiness of an optional integer: `None` and `0` are falsy. -/
def pyTruthyInt (o : Option Int) : Bool :=
  match o with
  | none => false
  | some e => e != 0

/-- Python `x or 0` on an optional integer. -/
def pyOrInt (o : Option Int) : Int :=
  if pyTruthyInt o then o.getD 0 else 0

/-- Error outcomes surfaced by the endpoints: 404 for a missing referenced
entity, 500 for a failed store write (after rollback). -/
inductive ApiError where
  | notFound
  | persistenceError
deriving DecidableEq

/- ### Customer identity allocator (`create_personal_details`, lines 267-279) -/

/-- The allocation policy of lines 272-278 given the suffix of the latest
customer (`None` when the table is empty): start at 111, otherwise
`max(last_num + 1, 111)`, formatted as `f"CUST{new_num:04d}"`. -/
def allocate_next_id (current_max_suffix : Option Nat) : String :=
  match current_max_suffix with
  | none => formatCustomerId 111
  | some last_num => formatCustomerId (max (last_num + 1) 111)

/-- Step of `order_by(col.desc()).first()`: keep the greater element under
`lt`, the first one on ties. -/
def pickStep (lt : α → α → Bool) (acc : Option α) (x : α) : Option α :=
  match acc with
  | none => some x
  | some m => if lt m x then some x else some m

/-- `query(...).order_by(col.desc()).first()`: the greatest element of the
list under `lt` (first such element on ties), `none` on an empty table. -/
def pickMax (lt : α → α → Bool) (l : List α) : Option α :=
  l.foldl (pickStep lt) none

/-- `db.query(MasterCustomerData).order_by(MasterCustomerData.Customer_ID.desc()).first()`
of lines 268-270: the customer whose identifier string is lexicographically
greatest. -/
def latestByIdDesc (pop : List MasterCustomerData) : Option MasterCustomerData :=
  pickMax (fun a b => strLt a.Customer_ID b.Customer_ID) pop

/-- Lines 267-279 as a function of the customer table: the identifier that
`create_personal_details` assigns next. -/
def nextCustomerId (pop : List MasterCustomerData) : String :=
  allocate_next_id ((latestByIdDesc pop).map (fun c => idSuffix c.Customer_ID))

/-- The `MasterCustomerData` row built from the request (lines 281-298);
`Customer_Since` is the server-side creation date. -/
def newCustomerRecord (cid : String) (details : PersonalDetailsRequest) (today : Int) :
    MasterCustomerData :=
  { Customer_ID := cid
    Name := details.name
    Fathers_Name := details.fathers_name
    DOB := details.dob
    Age := details.age
    Gender := details.gender
    Marital_Status := details.marital_status
    Address := details.address
    City := details.city
    State := details.state
    Pincode := details.pincode
    Mobile := details.mobile
    Alternate_Mobile := details.alternate_mobile
    Email := details.email
    Nationality := details.nationality
    Customer_Since := some today }

/-- `create_personal_details`: allocate the next identifier, insert the new
customer, commit; a failed commit rolls back (store unchanged) and reports a
persistence error. -/
def create_personal_details (db : Store) (details : PersonalDetailsRequest)
    (today : Int) (commitOk : Bool) : Except ApiError String × Store :=
  let customer_id := nextCustomerId db.customers
  let new_customer := newCustomerRecord customer_id details today
  if commitOk then
    (Except.ok customer_id, { db with customers := db.customers ++ [new_customer] })
  else
    (Except.error ApiError.persistenceError, db)

/-- Repeated customer creation: issue `k` identifiers, inserting each new
customer before the next call (all commits succeeding). -/
def allocRun (details : PersonalDetailsRequest) (today : Int) :
    Store → Nat → List String
  | _, 0 => []
  | db, k + 1 =>
    let cid := nextCustomerId db.customers
    cid :: allocRun details today (create_personal_details db details today true).2 k

/- ### Customer summary aggregator (`get_customer_summary`, lines 145-201) -/

/-- The loan filter of lines 170-174: the customer's loans with
`Loan_Required == "Yes"` and `Loan_Amount > 0`. -/
def qualifyingLoans (db : Store) (cid : String) : List LoanInfo :=
  db.loans.filter
    (fun l => (l.Customer_ID == cid && l.Loan_Required == "Yes")
      && decide (0 < l.Loan_Amount))

/-- The filter of lines 177-180, before ordering: the customer's loans with
`Loan_Required == "Yes"` (no amount condition). -/
def requestedLoans (db : Store) (cid : String) : List LoanInfo :=
  db.loans.filter (fun l => l.Customer_ID == cid && l.Loan_Required == "Yes")

/-- `ORDER BY Application_Date DESC` comparison. -/
def dateLt (a b : LoanInfo) : Bool := decide (a.Application_Date < b.Application_Date)

/-- One entry of the `existing_loans` list (lines 186-193). -/
structure LoanEntry where
  type : String
  amount : Int
  monthly_emi : Int
  tenure_years : Int
  status : String
deriving DecidableEq

/-- Lines 187-193: response shaping of one qualifying loan.  `monthly_emi`
uses Python truthiness (`float(loan.EMI) if loan.EMI else 0`), and
`tenure_years` is `(loan.Tenure_Months or 0) // 12` with Python floor
division. -/
def loanEntry (l : LoanInfo) : LoanEntry :=
  { type := l.Loan_Purpose
    amount := l.Loan_Amount
    monthly_emi := if pyTruthyInt l.EMI then l.EMI.getD 0 else 0
    tenure_years := Int.fdiv (pyOrInt l.Tenure_Months) 12
    status := l.Loan_Status }

/-- The summary response (lines 195-201). -/
structure Summary where
  customer_id : String
  name : String
  monthly_income : Int
  credit_score : Option Int
  existing_loans : List LoanEntry
deriving DecidableEq

/-- `get_customer_summary`: 404 when the customer does not exist, otherwise
the first employment record's income (0 if none), the credit score of the
latest loan application among loan-requested records, and the formatted
qualifying loans. -/
def get_customer_summary (db : Store) (customer_id : String) : Except ApiError Summary :=
  match db.customers.find? (fun c => c.Customer_ID == customer_id) with
  | none => Except.error ApiError.notFound
  | some customer =>
    let employment := db.employments.find? (fun e => e.Customer_ID == customer_id)
    let latest_loan := pickMax dateLt (requestedLoans db customer_id)
    Except.ok
      { customer_id := customer.Customer_ID
        name := customer.Name
        monthly_income :=
          match employment with
          | some e => e.Monthly_Income
          | none => 0
        credit_score :=
          match latest_loan with
          | some l => l.Credit_Score
          | none => none
        existing_loans := (qualifyingLoans db customer_id).map loanEntry }

/- ### Record creation endpoints (lines 322-433) -/

/-- The `EmploymentInfo` row built by `add_employment_details`
(lines 347-353): income is `int(details.monthly_income)`, status defaults. -/
def empRecordOf (cid : String) (details : EmploymentDetailsRequest) : EmploymentInfo :=
  { Customer_ID := cid
    Designation := details.designation
    Monthly_Income := pyInt details.monthly_income
    Employment_Status := "Active"
    Income_Verification := "Pending" }

/-- Response body of `add_employment_details` (lines 360-369). -/
structure EmploymentResponse where
  customer_id : String
  designation : String
  monthly_income : Int
  status : String
  verification : String
deriving DecidableEq

/-- `add_employment_details`: 404 when the customer does not exist (nothing
written), otherwise append exactly one `EmploymentInfo` row inside the
transaction; a failed commit rolls back and reports a persistence error. -/
def add_employment_details (db : Store) (cid : String)
    (details : EmploymentDetailsRequest) (commitOk : Bool) :
    Except ApiError EmploymentResponse × Store :=
  match db.customers.find? (fun c => c.Customer_ID == cid) with
  | none => (Except.error ApiError.notFound, db)
  | some _ =>
    let employment := empRecordOf cid details
    if commitOk then
      (Except.ok
        { customer_id := cid
          designation := employment.Designation
          monthly_income := employment.Monthly_Income
          status := employment.Employment_Status
          verification := employment.Income_Verification },
       { db with employments := db.employments ++ [employment] })
    else
      (Except.error ApiError.persistenceError, db)

/-- The `LoanInfo` row built by `add_loan_info` (lines 402-410): amount is
`int(details.loan_amount)`, purpose is fixed to `"Home"`, the application
date defaults to the current date (date truthiness: only `None` is falsy),
collateral is fixed to `"documents"`; EMI, tenure and credit score are not
set. -/
def loanRecordOf (cid : String) (details : LoanApplicationRequest) (today : Int) :
    LoanInfo :=
  { Customer_ID := cid
    Loan_Required := details.loan_required
    Loan_Amount := pyInt details.loan_amount
    Loan_Purpose := "Home"
    Application_Date :=
      match details.application_date with
      | some d => d
      | none => today
    Loan_Status := details.loan_status
    Collateral_Required := "documents"
    EMI := none
    Tenure_Months := none
    Credit_Score := none }

/-- Response body of `add_loan_info` (lines 417-427). -/
structure LoanResponse where
  customer_id : String
  loan_amount : Int
  loan_purpose : String
  application_date : Int
  status : String
  collateral : String
deriving DecidableEq

/-- `add_loan_info`: 404 when the customer does not exist (nothing written),
otherwise append exactly one `LoanInfo` row inside the transaction; a failed
commit rolls back and reports a persistence error. -/
def add_loan_info (db : Store) (cid : String) (details : LoanApplicationRequest)
    (today : Int) (commitOk : Bool) : Except ApiError LoanResponse × Store :=
  match db.customers.find? (fun c => c.Customer_ID == cid) with
  | none => (Except.error ApiError.notFound, db)
  | some _ =>
    let loan := loanRecordOf cid details today
    if commitOk then
      (Except.ok
        { customer_id := cid
          loan_amount := loan.Loan_Amount
          loan_purpose := loan.Loan_Purpose
          application_date := loan.Application_Date
          status := loan.Loan_Status
          collateral := loan.Collateral_Required },
       { db with loans := db.loans ++ [loan] })
    else
      (Except.error ApiError.persistenceError, db)

/- ### Allocator lemmas -/

/-- Numeric maximum of the suffixes stored in a customer table. -/
def maxSuffix (pop : List MasterCustomerData) : Nat :=
  pop.foldl (fun a c => max a (idSuffix c.Customer_ID)) 0

/-- A customer table is canonical when every identifier is `CUST` followed
by the zero-padded suffix, with the suffix in the 4-digit range. -/
def canonicalPop (pop : List MasterCustomerData) : Prop :=
  ∀ x ∈ pop, ∃ n, n ≤ 9999 ∧ x.Customer_ID = formatCustomerId n

theorem foldl_max_ge_start (pop : List MasterCustomerData) :
    ∀ a : Nat, a ≤ pop.foldl (fun a c => max a (idSuffix c.Customer_ID)) a := by
  induction pop with
  | nil => intro a; simp
  | cons c cs ih =>
    intro a
    have h : (c :: cs).foldl (fun a c => max a (idSuffix c.Customer_ID)) a
        = cs.foldl (fun a c => max a (idSuffix c.Customer_ID))
            (max a (idSuffix c.Customer_ID)) := rfl
    rw [h]
    exact le_trans (Nat.le_max_left _ _) (ih _)

theorem foldl_max_ge_mem (pop : List MasterCustomerData) :
    ∀ a : Nat, ∀ x ∈ pop,
      idSuffix x.Customer_ID ≤ pop.foldl (fun a c => max a (idSuffix c.Customer_ID)) a := by
  induction pop with
  | nil => intro a x hx; simp at hx
  | cons c cs ih =>
    intro a x hx
    have h : (c :: cs).foldl (fun a c => max a (idSuffix c.Customer_ID)) a
        = cs.foldl (fun a c => max a (idSuffix c.Customer_ID))
            (max a (idSuffix c.Customer_ID)) := rfl
    rw [h]
    rcases List.mem_cons.mp hx with hx | hx
    · rw [hx]
      exact le_trans (Nat.le_max_right _ _) (foldl_max_ge_start cs _)
    · exact ih _ x hx

theorem idSuffix_le_maxSuffix (pop : List MasterCustomerData) (x : MasterCustomerData)
    (hx : x ∈ pop) : idSuffix x.Customer_ID ≤ maxSuffix pop :=
  foldl_max_ge_mem pop 0 x hx

theorem maxSuffix_append_singleton (pop : List MasterCustomerData)
    (x : MasterCustomerData) :
    maxSuffix (pop ++ [x]) = max (maxSuffix pop) (idSuffix x.Customer_ID) := by
  unfold maxSuffix
  rw [List.foldl_append]
  rfl

/-- Invariant of the fold behind `latestByIdDesc` on a canonical table: with
a canonical accumulator it returns the element of canonical suffix equal to
the running numeric maximum. -/
theorem foldl_pickStep_canonical (pop : List MasterCustomerData) :
    ∀ (c : MasterCustomerData) (m : Nat), m ≤ 9999 →
      c.Customer_ID = formatCustomerId m → canonicalPop pop →
      ∃ c2 m2, pop.foldl (pickStep (fun a b => strLt a.Customer_ID b.Customer_ID)) (some c)
          = some c2
        ∧ c2.Customer_ID = formatCustomerId m2 ∧ m2 ≤ 9999
        ∧ m2 = pop.foldl (fun a x => max a (idSuffix x.Customer_ID)) m := by
  induction pop with
  | nil =>
    intro c m hm hc hcanon
    exact ⟨c, m, rfl, hc, hm, rfl⟩
  | cons x xs ih =>
    intro c m hm hc hcanon
    obtain ⟨n, hn, hxid⟩ := hcanon x (by simp)
    have hcanon2 : canonicalPop xs := fun y hy => hcanon y (by simp [hy])
    have hstep : pickStep (fun a b => strLt a.Customer_ID b.Customer_ID) (some c) x
        = if strLt c.Customer_ID x.Customer_ID then some x else some c := rfl
    have hsfx : idSuffix x.Customer_ID = n := by rw [hxid, idSuffix_formatCustomerId]
    have hfold : (x :: xs).foldl (fun a y => max a (idSuffix y.Customer_ID)) m
        = xs.foldl (fun a y => max a (idSuffix y.Customer_ID))
            (max m (idSuffix x.Customer_ID)) := rfl
    by_cases hlt : m < n
    · have hstr : strLt c.Customer_ID x.Customer_ID = true := by
        rw [hc, hxid]
        exact (formatCustomerId_lt_iff m n hm hn).mpr hlt
      have h1 : (x :: xs).foldl (pickStep (fun a b => strLt a.Customer_ID b.Customer_ID))
          (some c)
          = xs.foldl (pickStep (fun a b => strLt a.Customer_ID b.Customer_ID)) (some x) := by
        have : (x :: xs).foldl (pickStep (fun a b => strLt a.Customer_ID b.Customer_ID))
            (some c)
            = xs.foldl (pickStep (fun a b => strLt a.Customer_ID b.Customer_ID))
                (pickStep (fun a b => strLt a.Customer_ID b.Customer_ID) (some c) x) := rfl
        rw [this, hstep, hstr]
        simp
      obtain ⟨c2, m2, hfold2, hid2, hm2, heq2⟩ := ih x n hn hxid hcanon2
      refine ⟨c2, m2, ?_, hid2, hm2, ?_⟩
      · rw [h1, hfold2]
      · rw [heq2, hfold, hsfx, Nat.max_eq_right (le_of_lt hlt)]
    · have hstr : strLt c.Customer_ID x.Customer_ID = false := by
        rw [hc, hxid]
        rcases hb : strLt (formatCustomerId m) (formatCustomerId n) with _ | _
        · rfl
        · exact absurd ((formatCustomerId_lt_iff m n hm hn).mp hb) hlt
      have h1 : (x :: xs).foldl (pickStep (fun a b => strLt a.Customer_ID b.Customer_ID))
          (some c)
          = xs.foldl (pickStep (fun a b => strLt a.Customer_ID b.Customer_ID)) (some c) := by
        have : (x :: xs).foldl (pickStep (fun a b => strLt a.Customer_ID b.Customer_ID))
            (some c)
            = xs.foldl (pickStep (fun a b => strLt a.Customer_ID b.Customer_ID))
                (pickStep (fun a b => strLt a.Customer_ID b.Customer_ID) (some c) x) := rfl
        rw [this, hstep, hstr]
        simp
      obtain ⟨c2, m2, hfold2, hid2, hm2, heq2⟩ := ih c m hm hc hcanon2
      refine ⟨c2, m2, ?_, hid2, hm2, ?_⟩
      · rw [h1, hfold2]
      · rw [heq2, hfold, hsfx, Nat.max_eq_left (by omega)]

/-- On a nonempty canonical customer table, `ORDER BY Customer_ID DESC`
does find the customer of numerically greatest suffix. -/
theorem latestByIdDesc_canonical (pop : List MasterCustomerData) (hne : pop ≠ [])
    (hcanon : canonicalPop pop) :
    ∃ c, latestByIdDesc pop = some c
      ∧ c.Customer_ID = formatCustomerId (maxSuffix pop)
      ∧ idSuffix c.Customer_ID = maxSuffix pop
      ∧ maxSuffix pop ≤ 9999 := by
  cases pop with
  | nil => exact absurd rfl hne
  | cons y ys =>
    obtain ⟨n0, hn0, hyid⟩ := hcanon y (by simp)
    have hcanon2 : canonicalPop ys := fun x hx => hcanon x (by simp [hx])
    have h1 : latestByIdDesc (y :: ys)
        = ys.foldl (pickStep (fun a b => strLt a.Customer_ID b.Customer_ID)) (some y) := rfl
    obtain ⟨c2, m2, hfold2, hid2, hm2, heq2⟩ :=
      foldl_pickStep_canonical ys y n0 hn0 hyid hcanon2
    have hmax : maxSuffix (y :: ys) = m2 := by
      unfold maxSuffix
      have h2 : (y :: ys).foldl (fun a x => max a (idSuffix x.Customer_ID)) 0
          = ys.foldl (fun a x => max a (idSuffix x.Customer_ID))
              (max 0 (idSuffix y.Customer_ID)) := rfl
      rw [h2]
      have h3 : idSuffix y.Customer_ID = n0 := by rw [hyid, idSuffix_formatCustomerId]
      rw [h3, Nat.zero_max, heq2]
    refine ⟨c2, ?_, ?_, ?_, ?_⟩
    · rw [h1, hfold2]
    · rw [hid2, hmax]
    · rw [hid2, idSuffix_formatCustomerId, hmax]
    · rw [hmax]; exact hm2

/-- On a canonical customer table the allocator issues
`max(maxSuffix + 1, 111)`, zero-padded behind `CUST`. -/
theorem nextCustomerId_canonical (pop : List MasterCustomerData)
    (hcanon : canonicalPop pop) :
    nextCustomerId pop = formatCustomerId (max (maxSuffix pop + 1) 111) := by
  cases hpop : pop with
  | nil =>
    have : maxSuffix ([] : List MasterCustomerData) = 0 := rfl
    simp [nextCustomerId, latestByIdDesc, pickMax, allocate_next_id, this]
  | cons y ys =>
    rw [← hpop]
    obtain ⟨c, hfind, _, hsfx, _⟩ :=
      latestByIdDesc_canonical pop (by rw [hpop]; exact List.cons_ne_nil y ys) hcanon
    unfold nextCustomerId
    rw [hfind]
    simp [allocate_next_id, hsfx]

/-- Strict monotonicity of repeated allocation while the suffixes stay in
the 4-digit range: every identifier issued by the run dominates the starting
table, and the issued suffixes are strictly increasing. -/
theorem allocRun_spec (details : PersonalDetailsRequest) (today : Int) :
    ∀ (k : Nat) (db : Store), canonicalPop db.customers →
      maxSuffix db.customers + k ≤ 9999 → 111 + k ≤ 9999 →
      (∀ s ∈ allocRun details today db k,
        ∀ x ∈ db.customers, idSuffix x.Customer_ID < idSuffix s)
      ∧ List.Pairwise (fun a b => idSuffix a < idSuffix b) (allocRun details today db k) := by
  intro k
  induction k with
  | zero =>
    intro db hcanon h1 h2
    constructor
    · intro s hs
      simp [allocRun] at hs
    · simp [allocRun]
  | succ k ih =>
    intro db hcanon h1 h2
    have hnext : nextCustomerId db.customers
        = formatCustomerId (max (maxSuffix db.customers + 1) 111) :=
      nextCustomerId_canonical db.customers hcanon
    set M := maxSuffix db.customers with hM
    set s1 := max (M + 1) 111 with hs1
    have hs1le : s1 ≤ 9999 := by
      rw [hs1]
      rcases Nat.le_total (M + 1) 111 with h | h
      · rw [Nat.max_eq_right h]; omega
      · rw [Nat.max_eq_left h]; omega
    have hrun : allocRun details today db (k + 1)
        = nextCustomerId db.customers
          :: allocRun details today (create_personal_details db details today true).2 k := rfl
    have hdb2 : (create_personal_details db details today true).2
        = { db with customers :=
              db.customers ++ [newCustomerRecord (nextCustomerId db.customers) details today] } := rfl
    have hnewid : (newCustomerRecord (nextCustomerId db.customers) details today).Customer_ID
        = formatCustomerId s1 := by rw [hnext]; rfl
    have hcanon2 : canonicalPop ((create_personal_details db details today true).2).customers := by
      rw [hdb2]
      intro x hx
      rcases List.mem_append.mp hx with hx | hx
      · exact hcanon x hx
      · rw [List.mem_singleton.mp hx]
        exact ⟨s1, hs1le, hnewid⟩
    have hmax2 : maxSuffix ((create_personal_details db details today true).2).customers = s1 := by
      rw [hdb2]
      have := maxSuffix_append_singleton db.customers
        (newCustomerRecord (nextCustomerId db.customers) details today)
      rw [hnewid, idSuffix_formatCustomerId] at this
      rw [this, ← hM]
      have hMle : M ≤ s1 := by
        rw [hs1]
        exact le_trans (Nat.le_succ M) (Nat.le_max_left _ _)
      exact Nat.max_eq_right hMle
    have hb1 : maxSuffix ((create_personal_details db details today true).2).customers + k ≤ 9999 := by
      rw [hmax2, hs1]
      rcases Nat.le_total (M + 1) 111 with h | h
      · rw [Nat.max_eq_right h]; omega
      · rw [Nat.max_eq_left h]; omega
    have hb2 : 111 + k ≤ 9999 := by omega
    obtain ⟨ihdom, ihpw⟩ := ih (create_personal_details db details today true).2 hcanon2 hb1 hb2
    have hdomstart : ∀ x ∈ db.customers, idSuffix x.Customer_ID < s1 := by
      intro x hx
      have := idSuffix_le_maxSuffix db.customers x hx
      rw [← hM] at this
      rw [hs1]
      have : idSuffix x.Customer_ID < M + 1 := by omega
      exact lt_of_lt_of_le this (Nat.le_max_left _ _)
    have hsfx1 : idSuffix (nextCustomerId db.customers) = s1 := by
      rw [hnext, idSuffix_formatCustomerId]
    constructor
    · intro s hs x hx
      rw [hrun] at hs
      rcases List.mem_cons.mp hs with hs | hs
      · rw [hs, hsfx1]
        exact hdomstart x hx
      · exact ihdom s hs x (by rw [hdb2]; exact List.mem_append_left _ hx)
    · rw [hrun]
      rw [List.pairwise_cons]
      constructor
      · intro s hs
        rw [hsfx1]
        have hmem : (newCustomerRecord (nextCustomerId db.customers) details today)
            ∈ ((create_personal_details db details today true).2).customers := by
          rw [hdb2]
          exact List.mem_append_right _ (by simp)
        have := ihdom s hs _ hmem
        rw [hnewid, idSuffix_formatCustomerId] at this
        exact this
      · exact ihpw

/- ### Generic lemmas about `pickMax` (ORDER BY ... DESC ... first) -/

theorem foldl_pickStep_spec (lt : α → α → Bool)
    (htrans : ∀ a b c, lt a b = true → lt b c = true → lt a c = true)
    (hcompl : ∀ a b c, lt a b = false → lt b c = false → lt a c = false)
    (hirr : ∀ a, lt a a = false) :
    ∀ (l : List α) (c : α),
      ∃ m, l.foldl (pickStep lt) (some c) = some m
        ∧ (m = c ∨ m ∈ l) ∧ lt m c = false ∧ ∀ x ∈ l, lt m x = false := by
  intro l
  induction l with
  | nil =>
    intro c
    refine ⟨c, rfl, Or.inl rfl, hirr c, ?_⟩
    intro x hx
    simp at hx
  | cons x xs ih =>
    intro c
    have hstep : (x :: xs).foldl (pickStep lt) (some c)
        = xs.foldl (pickStep lt) (if lt c x then some x else some c) := rfl
    by_cases hlt : lt c x = true
    · obtain ⟨m, hm, hmem, hmx, hall⟩ := ih x
      have hmc : lt m c = false := by
        rcases hb : lt m c with _ | _
        · rfl
        · exact absurd (htrans m c x hb hlt) (by rw [hmx]; simp)
      refine ⟨m, ?_, ?_, hmc, ?_⟩
      · rw [hstep, hlt]
        simp
        exact hm
      · rcases hmem with hmem | hmem
        · exact Or.inr (by simp [hmem])
        · exact Or.inr (by simp [hmem])
      · intro y hy
        rcases List.mem_cons.mp hy with hy | hy
        · rw [hy]; exact hmx
        · exact hall y hy
    · have hlt2 : lt c x = false := by
        rcases hb : lt c x with _ | _
        · rfl
        · exact absurd hb hlt
      obtain ⟨m, hm, hmem, hmc, hall⟩ := ih c
      refine ⟨m, ?_, ?_, hmc, ?_⟩
      · rw [hstep, hlt2]
        simp
        exact hm
      · rcases hmem with hmem | hmem
        · exact Or.inl hmem
        · exact Or.inr (by simp [hmem])
      · intro y hy
        rcases List.mem_cons.mp hy with hy | hy
        · rw [hy]
          exact hcompl m c x hmc hlt2
        · exact hall y hy

theorem pickMax_spec (lt : α → α → Bool)
    (htrans : ∀ a b c, lt a b = true → lt b c = true → lt a c = true)
    (hcompl : ∀ a b c, lt a b = false → lt b c = false → lt a c = false)
    (hirr : ∀ a, lt a a = false)
    (l : List α) (hne : l ≠ []) :
    ∃ m, pickMax lt l = some m ∧ m ∈ l ∧ ∀ x ∈ l, lt m x = false := by
  cases l with
  | nil => exact absurd rfl hne
  | cons y ys =>
    obtain ⟨m, hm, hmem, hmy, hall⟩ := foldl_pickStep_spec lt htrans hcompl hirr ys y
    refine ⟨m, hm, ?_, ?_⟩
    · rcases hmem with hmem | hmem
      · simp [hmem]
      · simp [hmem]
    · intro x hx
      rcases List.mem_cons.mp hx with hx | hx
      · rw [hx]; exact hmy
      · exact hall x hx

theorem dateLt_trans (a b c : LoanInfo) (h1 : dateLt a b = true) (h2 : dateLt b c = true) :
    dateLt a c = true := by
  simp [dateLt] at h1 h2 ⊢
  omega

theorem dateLt_compl_trans (a b c : LoanInfo) (h1 : dateLt a b = false)
    (h2 : dateLt b c = false) : dateLt a c = false := by
  simp [dateLt] at h1 h2 ⊢
  omega

theorem dateLt_irrefl (a : LoanInfo) : dateLt a a = false := by
  simp [dateLt]

/- ### Evaluation lemmas for the summary and the filters -/

theorem get_customer_summary_ok (db : Store) (cid : String) (c : MasterCustomerData)
    (h : db.customers.find? (fun x => x.Customer_ID == cid) = some c) :
    get_customer_summary db cid = Except.ok
      { customer_id := c.Customer_ID
        name := c.Name
        monthly_income :=
          match db.employments.find? (fun e => e.Customer_ID == cid) with
          | some e => e.Monthly_Income
          | none => 0
        credit_score :=
          match pickMax dateLt (requestedLoans db cid) with
          | some l => l.Credit_Score
          | none => none
        existing_loans := (qualifyingLoans db cid).map loanEntry } := by
  unfold get_customer_summary
  rw [h]

theorem get_customer_summary_notFound (db : Store) (cid : String)
    (h : db.customers.find? (fun x => x.Customer_ID == cid) = none) :
    get_customer_summary db cid = Except.error ApiError.notFound := by
  unfold get_customer_summary
  rw [h]

theorem qualifyingLoans_eq_filter (db : Store) (cid : String) :
    qualifyingLoans db cid
      = (requestedLoans db cid).filter (fun l => decide (0 < l.Loan_Amount)) := by
  unfold qualifyingLoans requestedLoans
  rw [List.filter_filter]
  apply List.filter_congr
  intro a ha
  rw [Bool.and_comm]

/- ### Lemmas about Python `int` truncation -/

theorem pyInt_of_nonneg (q : ℚ) (h : 0 ≤ q) : pyInt q = ⌊q⌋ := by
  unfold pyInt
  rw [if_pos h]

theorem pyInt_of_neg (q : ℚ) (h : q < 0) : pyInt q = ⌈q⌉ := by
  unfold pyInt
  rw [if_neg (not_le.mpr h)]

theorem pyInt_nonneg (q : ℚ) (h : 0 ≤ q) : 0 ≤ pyInt q := by
  rw [pyInt_of_nonneg q h]
  exact Int.floor_nonneg.mpr h

theorem pyInt_abs (q : ℚ) : |pyInt q| = ⌊|q|⌋ := by
  by_cases h : 0 ≤ q
  · rw [pyInt_of_nonneg q h, abs_of_nonneg (Int.floor_nonneg.mpr h), abs_of_nonneg h]
  · have hq : q < 0 := not_le.mp h
    rw [pyInt_of_neg q hq]
    have hceil : ⌈q⌉ ≤ 0 := by
      calc ⌈q⌉ ≤ ⌈(0 : ℚ)⌉ := Int.ceil_le_ceil (le_of_lt hq)
        _ = 0 := Int.ceil_zero
    rw [abs_of_nonpos hceil, abs_of_nonpos (le_of_lt hq), ← Int.floor_neg]

/- ### Concrete fixtures used by witnesses and counterexamples -/

/-- A customer row with the given identifier (all other columns fixed
sample data; only the identifier matters to the allocator). -/
def custRow (cid : String) : MasterCustomerData :=
  { Customer_ID := cid
    Name := "Ramesh Gupta"
    Fathers_Name := "S Gupta"
    DOB := 0
    Age := 30
    Gender := "M"
    Marital_Status := "Single"
    Address := "1 Main St"
    City := "Hyderabad"
    State := "TS"
    Pincode := 500001
    Mobile := 9999999999
    Alternate_Mobile := none
    Email := "r@example.com"
    Nationality := "Indian"
    Customer_Since := none }

/-- A sample personal-details request body. -/
def sampleDetails : PersonalDetailsRequest :=
  { name := "Ramesh Gupta"
    fathers_name := "S Gupta"
    dob := 0
    age := 30
    gender := "M"
    marital_status := "Single"
    address := "1 Main St"
    city := "Hyderabad"
    state := "TS"
    pincode := 500001
    mobile := 9999999999
    alternate_mobile := none
    email := "r@example.com"
    nationality := "Indian" }

/-- A population whose lexicographically greatest identifier (`CUST2000`)
is not the numerically greatest one (`CUST10000`). -/
def popMixed : List MasterCustomerData := [custRow "CUST2000", custRow "CUST10000"]

/-- A store whose population sits just past the 4-digit identifier range:
it already contains `CUST10000`. -/
def storeOverflow : Store :=
  { customers := [custRow "CUST9999", custRow "CUST10000"]
    employments := []
    loans := [] }

/-- A store with one canonical customer, no employment and no loans. -/
def dbBare : Store :=
  { customers := [custRow "CUST0111"]
    employments := []
    loans := [] }

/-- A store with one canonical customer and no other rows at all. -/
def emptyStore : Store := { customers := [], employments := [], loans := [] }

/- ### Claim C1 -/

/-- C1: the allocation policy of `create_personal_details` returns `CUST`
followed by the next number zero-padded to 4 digits, where the next number
is 111 when no customer exists and `max(current_max_suffix + 1, 111)`
otherwise; in particular `allocate_next_id(None) = "CUST0111"`, a max
suffix of 150 yields `"CUST0151"` and a max suffix of 5 yields
`"CUST0111"`. -/
theorem allocate_next_id_policy :
    allocate_next_id none = "CUST0111"
    ∧ allocate_next_id (some 150) = "CUST0151"
    ∧ allocate_next_id (some 5) = "CUST0111"
    ∧ ∀ m : Nat,
        allocate_next_id (some m) = formatCustomerId (max (m + 1) 111)
        ∧ (allocate_next_id (some m)).data.take 4 = ['C', 'U', 'S', 'T']
        ∧ idSuffix (allocate_next_id (some m)) = max (m + 1) 111
        ∧ 4 ≤ ((allocate_next_id (some m)).data.drop 4).length
        ∧ ∀ ch ∈ (allocate_next_id (some m)).data.drop 4, isDigitChar ch := by
  refine ⟨by decide, by decide, by decide, ?_⟩
  intro m
  have h1 : allocate_next_id (some m) = formatCustomerId (max (m + 1) 111) := rfl
  have hdata : (allocate_next_id (some m)).data
      = 'C' :: 'U' :: 'S' :: 'T' :: pad4 (natDigits (max (m + 1) 111)) := rfl
  have hdrop : (allocate_next_id (some m)).data.drop 4
      = pad4 (natDigits (max (m + 1) 111)) := by rw [hdata]; rfl
  refine ⟨h1, ?_, ?_, ?_, ?_⟩
  · rw [hdata]; rfl
  · rw [h1, idSuffix_formatCustomerId]
  · rw [hdrop]
    exact pad4_length_ge _
  · rw [hdrop]
    exact pad4_digits _ (natDigits_digits _)

/- ### Claim C2 -/

/-- C2 counterexample: `ORDER BY Customer_ID DESC` compares identifier
strings, not numeric suffixes.  On the population
`[CUST2000, CUST10000]` — both identifiers well-formed under the data
model's `CUST` + zero-padded-integer format — the row the allocator takes
as "latest" is `CUST2000` (suffix 2000), not the numeric maximum 10000,
and the allocator issues `CUST2001`, not the successor of the numeric
maximum. -/
theorem latest_customer_not_numeric_max :
    (latestByIdDesc popMixed).map (fun c => idSuffix c.Customer_ID) = some 2000
    ∧ maxSuffix popMixed = 10000
    ∧ nextCustomerId popMixed = "CUST2001"
    ∧ nextCustomerId popMixed ≠ formatCustomerId (maxSuffix popMixed + 1) := by
  refine ⟨rfl, rfl, rfl, by decide⟩

/-- C2 amended: on every nonempty population whose identifiers are all in
canonical `CUST` + 4-digit zero-padded form (numeric suffix at most 9999),
the suffix the allocator increments is the numeric suffix of the row found
by ordering identifiers descending, and that suffix is the numeric maximum
over all stored identifiers; with identifiers of mixed digit length the
string order used by the query can pick a non-maximal suffix. -/
theorem latest_customer_numeric_max_on_canonical (pop : List MasterCustomerData)
    (hne : pop ≠ []) (hcanon : canonicalPop pop) :
    ∃ c, latestByIdDesc pop = some c
      ∧ idSuffix c.Customer_ID = maxSuffix pop
      ∧ (∀ x ∈ pop, idSuffix x.Customer_ID ≤ idSuffix c.Customer_ID)
      ∧ nextCustomerId pop = allocate_next_id (some (maxSuffix pop)) := by
  obtain ⟨c, h1, _, h3, _⟩ := latestByIdDesc_canonical pop hne hcanon
  refine ⟨c, h1, h3, ?_, ?_⟩
  · intro x hx
    rw [h3]
    exact idSuffix_le_maxSuffix pop x hx
  · unfold nextCustomerId
    rw [h1]
    simp [h3]

/-- Witness population for the amended C2: two canonical identifiers. -/
def popCanonical : List MasterCustomerData := [custRow "CUST0150", custRow "CUST0120"]

theorem latest_customer_numeric_max_on_canonical_witness :
    popCanonical ≠ []
    ∧ canonicalPop popCanonical
    ∧ ∃ c, latestByIdDesc popCanonical = some c
        ∧ idSuffix c.Customer_ID = maxSuffix popCanonical
        ∧ (∀ x ∈ popCanonical, idSuffix x.Customer_ID ≤ idSuffix c.Customer_ID)
        ∧ nextCustomerId popCanonical = allocate_next_id (some (maxSuffix popCanonical)) := by
  have hcanon : canonicalPop popCanonical := by
    intro x hx
    rcases List.mem_cons.mp hx with h | h
    · exact ⟨150, by decide, by rw [h]; decide⟩
    · rw [List.mem_singleton.mp h]
      exact ⟨120, by decide, by decide⟩
  exact ⟨by decide, hcanon,
    latest_customer_numeric_max_on_canonical popCanonical (by decide) hcanon⟩

/- ### Claim C3 -/

/-- C3 counterexample: allocation is not strictly monotonic for every
starting population.  From a population already holding `CUST9999` and
`CUST10000` (the latter is exactly what the allocator itself issues after
`CUST9999`), the next two calls both issue `CUST10000`: the string-ordered
"latest" row is still `CUST9999`, so the suffix 10000 is reissued rather
than increased. -/
theorem allocation_reuses_suffix_at_10000 :
    allocRun sampleDetails 0 storeOverflow 2 = ["CUST10000", "CUST10000"]
    ∧ (allocRun sampleDetails 0 storeOverflow 2).map idSuffix = [10000, 10000]
    ∧ ¬ List.Pairwise (fun a b => idSuffix a < idSuffix b)
        (allocRun sampleDetails 0 storeOverflow 2) := by
  refine ⟨rfl, rfl, by decide⟩

/-- C3 amended: allocation is strictly monotonic as long as every
identifier stays in the canonical 4-digit zero-padded range: starting from
any canonical population whose maximal suffix leaves room for `k` issues
below 10000, each of `k` successive calls (the population updated with the
previously issued identifier) issues a suffix strictly greater than every
suffix in the starting population, and the issued suffixes are strictly
increasing — no reuse and no decrease.  Once suffix 10000 is reached the
property fails (see the counterexample). -/
theorem allocation_strictly_monotonic_on_canonical (details : PersonalDetailsRequest)
    (today : Int) (db : Store) (k : Nat) (hcanon : canonicalPop db.customers)
    (h1 : maxSuffix db.customers + k ≤ 9999) (h2 : 111 + k ≤ 9999) :
    (∀ s ∈ allocRun details today db k,
      ∀ x ∈ db.customers, idSuffix x.Customer_ID < idSuffix s)
    ∧ List.Pairwise (fun a b => idSuffix a < idSuffix b) (allocRun details today db k) :=
  allocRun_spec details today k db hcanon h1 h2

/-- Witness store for the amended C3: one canonical customer `CUST0150`. -/
def dbMono : Store :=
  { customers := [custRow "CUST0150"], employments := [], loans := [] }

theorem allocation_strictly_monotonic_on_canonical_witness :
    canonicalPop dbMono.customers
    ∧ maxSuffix dbMono.customers + 3 ≤ 9999
    ∧ 111 + 3 ≤ 9999
    ∧ ((∀ s ∈ allocRun sampleDetails 0 dbMono 3,
          ∀ x ∈ dbMono.customers, idSuffix x.Customer_ID < idSuffix s)
        ∧ List.Pairwise (fun a b => idSuffix a < idSuffix b)
            (allocRun sampleDetails 0 dbMono 3)) := by
  have hcanon : canonicalPop dbMono.customers := by
    intro x hx
    rw [List.mem_singleton.mp hx]
    exact ⟨150, by decide, by decide⟩
  exact ⟨hcanon, by decide, by decide,
    allocation_strictly_monotonic_on_canonical sampleDetails 0 dbMono 3 hcanon
      (by decide) (by decide)⟩

/- ### Claim C4 -/

/-- C4: for an existing customer, the summary's `existing_loans` list is
built from exactly those stored loan records of the customer whose
loan-requested flag is `"Yes"` and whose amount is strictly positive; a
record with another flag value or a zero amount is excluded even though it
is in storage. -/
theorem existing_loans_exactly_qualifying (db : Store) (cid : String)
    (c : MasterCustomerData)
    (h : db.customers.find? (fun x => x.Customer_ID == cid) = some c) :
    ∃ s, get_customer_summary db cid = Except.ok s
      ∧ s.existing_loans = (qualifyingLoans db cid).map loanEntry
      ∧ ∀ l ∈ db.loans,
          (l ∈ qualifyingLoans db cid
            ↔ l.Customer_ID = cid ∧ l.Loan_Required = "Yes" ∧ 0 < l.Loan_Amount) := by
  refine ⟨_, get_customer_summary_ok db cid c h, rfl, ?_⟩
  intro l hl
  unfold qualifyingLoans
  rw [List.mem_filter]
  simp [hl, and_assoc]

/-- A store with one customer, one employment record and three loans: a
qualifying one, one with flag `"No"`, and one with amount 0. -/
def dbSummary : Store :=
  { customers := [custRow "CUST0111"]
    employments := [{ Customer_ID := "CUST0111", Designation := "Engineer",
                      Monthly_Income := 50000, Employment_Status := "Active",
                      Income_Verification := "Pending" }]
    loans :=
      [{ Customer_ID := "CUST0111", Loan_Required := "Yes", Loan_Amount := 200000,
         Loan_Purpose := "Home", Application_Date := 10, Loan_Status := "PENDING",
         Collateral_Required := "documents", EMI := some 5000,
         Tenure_Months := some 18, Credit_Score := some 720 },
       { Customer_ID := "CUST0111", Loan_Required := "No", Loan_Amount := 100,
         Loan_Purpose := "Car", Application_Date := 20, Loan_Status := "PENDING",
         Collateral_Required := "documents", EMI := none,
         Tenure_Months := none, Credit_Score := none },
       { Customer_ID := "CUST0111", Loan_Required := "Yes", Loan_Amount := 0,
         Loan_Purpose := "Home", Application_Date := 5, Loan_Status := "DECLINED",
         Collateral_Required := "documents", EMI := none,
         Tenure_Months := none, Credit_Score := some 650 }] }

theorem existing_loans_exactly_qualifying_witness :
    dbSummary.customers.find? (fun x => x.Customer_ID == "CUST0111")
        = some (custRow "CUST0111")
    ∧ ∃ s, get_customer_summary dbSummary "CUST0111" = Except.ok s
        ∧ s.existing_loans = (qualifyingLoans dbSummary "CUST0111").map loanEntry
        ∧ ∀ l ∈ dbSummary.loans,
            (l ∈ qualifyingLoans dbSummary "CUST0111"
              ↔ l.Customer_ID = "CUST0111" ∧ l.Loan_Required = "Yes" ∧ 0 < l.Loan_Amount) :=
  ⟨rfl, existing_loans_exactly_qualifying dbSummary "CUST0111" (custRow "CUST0111") rfl⟩

/- ### Claim C5 -/

/-- C5: employment and loan creation first check that the referenced
customer exists — failing with NotFound and writing nothing otherwise — and
on success append exactly one new record, leaving the other tables
untouched; a failed commit rolls the transaction back (store unchanged) and
reports a persistence error, so no partial record is ever visible. -/
theorem record_creation_referential_and_atomic (db : Store) (cid : String)
    (reqE : EmploymentDetailsRequest) (reqL : LoanApplicationRequest) (today : Int) :
    (db.customers.find? (fun x => x.Customer_ID == cid) = none →
      add_employment_details db cid reqE true = (Except.error ApiError.notFound, db)
      ∧ add_employment_details db cid reqE false = (Except.error ApiError.notFound, db)
      ∧ add_loan_info db cid reqL today true = (Except.error ApiError.notFound, db)
      ∧ add_loan_info db cid reqL today false = (Except.error ApiError.notFound, db))
    ∧ (∀ c, db.customers.find? (fun x => x.Customer_ID == cid) = some c →
        (add_employment_details db cid reqE true).2.employments
            = db.employments ++ [empRecordOf cid reqE]
        ∧ (add_employment_details db cid reqE true).2.customers = db.customers
        ∧ (add_employment_details db cid reqE true).2.loans = db.loans
        ∧ (add_loan_info db cid reqL today true).2.loans
            = db.loans ++ [loanRecordOf cid reqL today]
        ∧ (add_loan_info db cid reqL today true).2.customers = db.customers
        ∧ (add_loan_info db cid reqL today true).2.employments = db.employments
        ∧ add_employment_details db cid reqE false
            = (Except.error ApiError.persistenceError, db)
        ∧ add_loan_info db cid reqL today false
            = (Except.error ApiError.persistenceError, db)) := by
  constructor
  · intro h
    refine ⟨?_, ?_, ?_, ?_⟩ <;> simp [add_employment_details, add_loan_info, h]
  · intro c h
    refine ⟨?_, ?_, ?_, ?_, ?_, ?_, ?_, ?_⟩ <;>
      simp [add_employment_details, add_loan_info, h]

/-- Sample employment request with integral income. -/
def reqEmpW : EmploymentDetailsRequest :=
  { designation := "Engineer", monthly_income := 50000 }

/-- Sample loan request with integral amount (defaults for the rest). -/
def reqLoanW : LoanApplicationRequest := { loan_amount := 200000 }

theorem record_creation_referential_and_atomic_witness :
    add_employment_details emptyStore "CUST0111" reqEmpW true
        = (Except.error ApiError.notFound, emptyStore)
    ∧ (add_employment_details dbBare "CUST0111" reqEmpW true).2.employments
        = dbBare.employments ++ [empRecordOf "CUST0111" reqEmpW]
    ∧ add_loan_info dbBare "CUST0111" reqLoanW 0 false
        = (Except.error ApiError.persistenceError, dbBare) := by
  refine ⟨?_, ?_, ?_⟩
  · exact ((record_creation_referential_and_atomic emptyStore "CUST0111"
      reqEmpW reqLoanW 0).1 rfl).1
  · exact ((record_creation_referential_and_atomic dbBare "CUST0111"
      reqEmpW reqLoanW 0).2 (custRow "CUST0111") rfl).1
  · exact (((((((record_creation_referential_and_atomic dbBare "CUST0111"
      reqEmpW reqLoanW 0).2 (custRow "CUST0111") rfl).2).2).2).2).2).2.2

/- ### Claim C6 -/

/-- C6: for an existing customer the credit score is taken from the latest
application (maximal `Application_Date`) among the customer's loan-requested
records — membership in that candidate set requires only the `"Yes"` flag,
with no amount filter — and is null when no loan-requested record exists. -/
theorem credit_score_from_latest_requested (db : Store) (cid : String)
    (c : MasterCustomerData)
    (h : db.customers.find? (fun x => x.Customer_ID == cid) = some c) :
    ∃ s, get_customer_summary db cid = Except.ok s
      ∧ (∀ l ∈ db.loans,
          (l ∈ requestedLoans db cid ↔ l.Customer_ID = cid ∧ l.Loan_Required = "Yes"))
      ∧ (requestedLoans db cid = [] → s.credit_score = none)
      ∧ (requestedLoans db cid ≠ [] →
          ∃ l, l ∈ requestedLoans db cid
            ∧ (∀ x ∈ requestedLoans db cid, x.Application_Date ≤ l.Application_Date)
            ∧ s.credit_score = l.Credit_Score) := by
  refine ⟨_, get_customer_summary_ok db cid c h, ?_, ?_, ?_⟩
  · intro l hl
    unfold requestedLoans
    rw [List.mem_filter]
    simp [hl]
  · intro hempty
    simp [hempty, pickMax]
  · intro hne
    obtain ⟨m, hm, hmem, hall⟩ :=
      pickMax_spec dateLt dateLt_trans dateLt_compl_trans dateLt_irrefl
        (requestedLoans db cid) hne
    refine ⟨m, hmem, ?_, ?_⟩
    · intro x hx
      have hx2 := hall x hx
      simp [dateLt] at hx2
      omega
    · simp [hm]

theorem credit_score_from_latest_requested_witness :
    dbSummary.customers.find? (fun x => x.Customer_ID == "CUST0111")
        = some (custRow "CUST0111")
    ∧ ∃ s, get_customer_summary dbSummary "CUST0111" = Except.ok s
        ∧ (∀ l ∈ dbSummary.loans,
            (l ∈ requestedLoans dbSummary "CUST0111"
              ↔ l.Customer_ID = "CUST0111" ∧ l.Loan_Required = "Yes"))
        ∧ (requestedLoans dbSummary "CUST0111" = [] → s.credit_score = none)
        ∧ (requestedLoans dbSummary "CUST0111" ≠ [] →
            ∃ l, l ∈ requestedLoans dbSummary "CUST0111"
              ∧ (∀ x ∈ requestedLoans dbSummary "CUST0111",
                  x.Application_Date ≤ l.Application_Date)
              ∧ s.credit_score = l.Credit_Score) :=
  ⟨rfl, credit_score_from_latest_requested dbSummary "CUST0111" (custRow "CUST0111") rfl⟩

/- ### Claim C7 -/

/-- A store with one customer, no employment record, and a single stored
loan that is loan-requested but has amount 0 (and a credit score). -/
def dbZeroAmount : Store :=
  { customers := [custRow "CUST0111"]
    employments := []
    loans := [{ Customer_ID := "CUST0111", Loan_Required := "Yes", Loan_Amount := 0,
                Loan_Purpose := "Home", Application_Date := 100,
                Loan_Status := "DECLINED", Collateral_Required := "documents",
                EMI := none, Tenure_Months := none, Credit_Score := some 700 }] }

/-- C7 counterexample: a customer with no employment record and no
qualifying loans does get monthly income 0 and an empty loan list, but the
credit score is not null — the credit-score query has no amount filter, so
a loan-requested record with amount 0 still supplies its credit score
(here 700). -/
theorem credit_score_not_null_on_zero_amount :
    (dbZeroAmount.customers.find? (fun x => x.Customer_ID == "CUST0111")).isSome = true
    ∧ dbZeroAmount.employments.find? (fun e => e.Customer_ID == "CUST0111") = none
    ∧ qualifyingLoans dbZeroAmount "CUST0111" = []
    ∧ (get_customer_summary dbZeroAmount "CUST0111").map Summary.monthly_income
        = Except.ok 0
    ∧ (get_customer_summary dbZeroAmount "CUST0111").map Summary.existing_loans
        = Except.ok []
    ∧ (get_customer_summary dbZeroAmount "CUST0111").map Summary.credit_score
        = Except.ok (some 700) :=
  ⟨rfl, rfl, rfl, rfl, rfl, rfl⟩

/-- C7 amended: the summary fails with NotFound exactly when no customer
with the identifier exists; and an existing customer with no employment
record and no loan-requested record at all (not merely no qualifying loan)
gets monthly income 0, credit score null and an empty loan list. -/
theorem summary_notfound_iff_and_empty_defaults (db : Store) (cid : String) :
    (get_customer_summary db cid = Except.error ApiError.notFound
      ↔ db.customers.find? (fun x => x.Customer_ID == cid) = none)
    ∧ (∀ c, db.customers.find? (fun x => x.Customer_ID == cid) = some c →
        db.employments.find? (fun e => e.Customer_ID == cid) = none →
        requestedLoans db cid = [] →
        get_customer_summary db cid = Except.ok
          { customer_id := c.Customer_ID
            name := c.Name
            monthly_income := 0
            credit_score := none
            existing_loans := [] }) := by
  constructor
  · constructor
    · intro h
      cases hfind : db.customers.find? (fun x => x.Customer_ID == cid) with
      | none => rfl
      | some c =>
        rw [get_customer_summary_ok db cid c hfind] at h
        exact absurd h (by simp)
    · intro h
      exact get_customer_summary_notFound db cid h
  · intro c hc hemp hreq
    have hq : qualifyingLoans db cid = [] := by
      rw [qualifyingLoans_eq_filter, hreq]
      rfl
    rw [get_customer_summary_ok db cid c hc]
    simp [hemp, hreq, hq, pickMax]

theorem summary_notfound_iff_and_empty_defaults_witness :
    get_customer_summary dbBare "CUST0999" = Except.error ApiError.notFound
    ∧ get_customer_summary dbBare "CUST0111" = Except.ok
        { customer_id := "CUST0111", name := "Ramesh Gupta", monthly_income := 0,
          credit_score := none, existing_loans := [] } := by
  constructor
  · exact (summary_notfound_iff_and_empty_defaults dbBare "CUST0999").1.mpr rfl
  · exact (summary_notfound_iff_and_empty_defaults dbBare "CUST0111").2
      (custRow "CUST0111") rfl rfl rfl

/- ### Claim C8 -/

/-- C8 counterexample: neither the request schemas nor the endpoints check
sign, so a negative submitted amount is persisted as a negative stored
value: `monthly_income = -500` is stored as `-500`, and
`loan_amount = -1000` is stored as `-1000`. -/
theorem negative_amount_persisted :
    (add_employment_details dbBare "CUST0111"
        { designation := "Engineer", monthly_income := -500 } true).2.employments
      = [{ Customer_ID := "CUST0111", Designation := "Engineer",
           Monthly_Income := -500, Employment_Status := "Active",
           Income_Verification := "Pending" }]
    ∧ (add_loan_info dbBare "CUST0111" { loan_amount := -1000 } 0 true).2.loans
      = [{ Customer_ID := "CUST0111", Loan_Required := "Yes", Loan_Amount := -1000,
           Loan_Purpose := "Home", Application_Date := 0, Loan_Status := "PENDING",
           Collateral_Required := "documents", EMI := none, Tenure_Months := none,
           Credit_Score := none }]
    ∧ (-500 : Int) < 0 ∧ (-1000 : Int) < 0 := by
  refine ⟨by decide, by decide, by decide, by decide⟩

/-- C8 amended: the stored monetary amounts are non-negative provided the
submitted request values are non-negative (which the spec delegates to an
external validation layer); the core itself performs no sign check, so this
is conditional — every employment or loan row present after a creation call
is either a pre-existing row or has a non-negative amount. -/
theorem stored_amounts_nonneg_of_nonneg_inputs (db : Store) (cid : String)
    (today : Int) (commitOk : Bool) (reqE : EmploymentDetailsRequest)
    (reqL : LoanApplicationRequest) (hE : 0 ≤ reqE.monthly_income)
    (hL : 0 ≤ reqL.loan_amount) :
    (∀ e ∈ (add_employment_details db cid reqE commitOk).2.employments,
      e ∈ db.employments ∨ 0 ≤ e.Monthly_Income)
    ∧ (∀ l ∈ (add_loan_info db cid reqL today commitOk).2.loans,
      l ∈ db.loans ∨ 0 ≤ l.Loan_Amount) := by
  constructor
  · intro e he
    cases hfind : db.customers.find? (fun x => x.Customer_ID == cid) with
    | none =>
      simp [add_employment_details, hfind] at he
      exact Or.inl he
    | some c =>
      cases commitOk with
      | false =>
        simp [add_employment_details, hfind] at he
        exact Or.inl he
      | true =>
        simp [add_employment_details, hfind] at he
        rcases he with he | he
        · exact Or.inl he
        · right
          rw [he]
          exact pyInt_nonneg _ hE
  · intro l hl
    cases hfind : db.customers.find? (fun x => x.Customer_ID == cid) with
    | none =>
      simp [add_loan_info, hfind] at hl
      exact Or.inl hl
    | some c =>
      cases commitOk with
      | false =>
        simp [add_loan_info, hfind] at hl
        exact Or.inl hl
      | true =>
        simp [add_loan_info, hfind] at hl
        rcases hl with hl | hl
        · exact Or.inl hl
        · right
          rw [hl]
          exact pyInt_nonneg _ hL

theorem stored_amounts_nonneg_of_nonneg_inputs_witness :
    (0 : ℚ) ≤ reqEmpW.monthly_income
    ∧ (0 : ℚ) ≤ reqLoanW.loan_amount
    ∧ ((∀ e ∈ (add_employment_details dbBare "CUST0111" reqEmpW true).2.employments,
        e ∈ dbBare.employments ∨ 0 ≤ e.Monthly_Income)
      ∧ (∀ l ∈ (add_loan_info dbBare "CUST0111" reqLoanW 0 true).2.loans,
        l ∈ dbBare.loans ∨ 0 ≤ l.Loan_Amount)) :=
  ⟨by decide, by decide,
    stored_amounts_nonneg_of_nonneg_inputs dbBare "CUST0111" 0 true reqEmpW reqLoanW
      (by decide) (by decide)⟩

/- ### Claim C9 -/

/-- C9: every entry of the summary's loan list comes from a stored
qualifying loan via the formatting step, whose `tenure_years` is the floor
division of the tenure in months by 12 (0 when the tenure is absent) and
whose `monthly_emi` is 0 when the EMI is null; in particular a tenure of 18
months yields 1 year, not 2. -/
theorem tenure_years_and_emi_formatting (db : Store) (cid : String)
    (c : MasterCustomerData)
    (h : db.customers.find? (fun x => x.Customer_ID == cid) = some c) :
    ∃ s, get_customer_summary db cid = Except.ok s
      ∧ (∀ e ∈ s.existing_loans, ∃ l, l ∈ qualifyingLoans db cid ∧ e = loanEntry l)
      ∧ ∀ l : LoanInfo,
          (l.Tenure_Months = none → (loanEntry l).tenure_years = 0)
          ∧ (∀ t, l.Tenure_Months = some t → (loanEntry l).tenure_years = Int.fdiv t 12)
          ∧ (l.Tenure_Months = some 18 → (loanEntry l).tenure_years = 1)
          ∧ (l.EMI = none → (loanEntry l).monthly_emi = 0) := by
  refine ⟨_, get_customer_summary_ok db cid c h, ?_, ?_⟩
  · intro e he
    have he2 : e ∈ (qualifyingLoans db cid).map loanEntry := he
    rw [List.mem_map] at he2
    obtain ⟨l, hl, hle⟩ := he2
    exact ⟨l, hl, hle.symm⟩
  · intro l
    refine ⟨?_, ?_, ?_, ?_⟩
    · intro ht
      simp [loanEntry, pyOrInt, pyTruthyInt, ht]
    · intro t ht
      by_cases h0 : t = 0
      · simp [loanEntry, pyOrInt, pyTruthyInt, ht, h0]
      · simp [loanEntry, pyOrInt, pyTruthyInt, ht, h0]
    · intro ht
      simp [loanEntry, pyOrInt, pyTruthyInt, ht]
    · intro hemi
      simp [loanEntry, pyTruthyInt, hemi]

theorem tenure_years_and_emi_formatting_witness :
    dbSummary.customers.find? (fun x => x.Customer_ID == "CUST0111")
        = some (custRow "CUST0111")
    ∧ ∃ s, get_customer_summary dbSummary "CUST0111" = Except.ok s
        ∧ (∀ e ∈ s.existing_loans,
            ∃ l, l ∈ qualifyingLoans dbSummary "CUST0111" ∧ e = loanEntry l)
        ∧ ∀ l : LoanInfo,
            (l.Tenure_Months = none → (loanEntry l).tenure_years = 0)
            ∧ (∀ t, l.Tenure_Months = some t → (loanEntry l).tenure_years = Int.fdiv t 12)
            ∧ (l.Tenure_Months = some 18 → (loanEntry l).tenure_years = 1)
            ∧ (l.EMI = none → (loanEntry l).monthly_emi = 0) :=
  ⟨rfl, tenure_years_and_emi_formatting dbSummary "CUST0111" (custRow "CUST0111") rfl⟩

/- ### Claim C10 -/

/-- C10: the submitted monthly income and loan amount are accepted as
floating-point values but pass through `int(...)` before storage, which
truncates toward zero; the stored row and the creation response carry the
truncated value, e.g. 50000.75 is stored and echoed as 50000. -/
theorem monetary_truncation_toward_zero (db : Store) (cid : String)
    (c : MasterCustomerData) (today : Int) (reqE : EmploymentDetailsRequest)
    (reqL : LoanApplicationRequest)
    (h : db.customers.find? (fun x => x.Customer_ID == cid) = some c) :
    (add_employment_details db cid reqE true).1
        = Except.ok
            { customer_id := cid
              designation := reqE.designation
              monthly_income := pyInt reqE.monthly_income
              status := "Active"
              verification := "Pending" }
    ∧ (add_employment_details db cid reqE true).2.employments
        = db.employments ++ [empRecordOf cid reqE]
    ∧ (empRecordOf cid reqE).Monthly_Income = pyInt reqE.monthly_income
    ∧ (loanRecordOf cid reqL today).Loan_Amount = pyInt reqL.loan_amount
    ∧ (add_loan_info db cid reqL today true).2.loans
        = db.loans ++ [loanRecordOf cid reqL today]
    ∧ (∀ q : ℚ, 0 ≤ q → pyInt q = ⌊q⌋)
    ∧ (∀ q : ℚ, q < 0 → pyInt q = ⌈q⌉)
    ∧ (∀ q : ℚ, |pyInt q| = ⌊|q|⌋)
    ∧ pyInt (50000.75 : ℚ) = 50000 := by
  refine ⟨?_, ?_, rfl, rfl, ?_, pyInt_of_nonneg, pyInt_of_neg, pyInt_abs, ?_⟩
  · simp [add_employment_details, empRecordOf, h]
  · simp [add_employment_details, h]
  · simp [add_loan_info, h]
  · rw [pyInt_of_nonneg (50000.75 : ℚ) (by norm_num)]
    norm_num

/-- Employment request with the fractional income from the claim. -/
def reqEmpFrac : EmploymentDetailsRequest :=
  { designation := "Engineer", monthly_income := 50000.75 }

theorem monetary_truncation_toward_zero_witness :
    dbBare.customers.find? (fun x => x.Customer_ID == "CUST0111")
        = some (custRow "CUST0111")
    ∧ ((add_employment_details dbBare "CUST0111" reqEmpFrac true).1
        = Except.ok
            { customer_id := "CUST0111"
              designation := reqEmpFrac.designation
              monthly_income := pyInt reqEmpFrac.monthly_income
              status := "Active"
              verification := "Pending" }
      ∧ (add_employment_details dbBare "CUST0111" reqEmpFrac true).2.employments
          = dbBare.employments ++ [empRecordOf "CUST0111" reqEmpFrac]
      ∧ (empRecordOf "CUST0111" reqEmpFrac).Monthly_Income
          = pyInt reqEmpFrac.monthly_income
      ∧ (loanRecordOf "CUST0111" reqLoanW 0).Loan_Amount = pyInt reqLoanW.loan_amount
      ∧ (add_loan_info dbBare "CUST0111" reqLoanW 0 true).2.loans
          = dbBare.loans ++ [loanRecordOf "CUST0111" reqLoanW 0]
      ∧ (∀ q : ℚ, 0 ≤ q → pyInt q = ⌊q⌋)
      ∧ (∀ q : ℚ, q < 0 → pyInt q = ⌈q⌉)
      ∧ (∀ q : ℚ, |pyInt q| = ⌊|q|⌋)
      ∧ pyInt (50000.75 : ℚ) = 50000) :=
  ⟨rfl, monetary_truncation_toward_zero dbBare "CUST0111" (custRow "CUST0111") 0
    reqEmpFrac reqLoanW rfl⟩

end LoanApp
